import Mathlib

/-!
Verification of the `chops::periodic_timer` class template
(include/timer/periodic_timer.hpp), a periodic-callback scheduler built on an
asio one-shot waitable timer.

Shallow embedding conventions:
* Time values (`time_point`, `duration`) are integers (`Int`), abstracting the
  clock's tick count.  `Clock::now()` at the instant a completion handler runs
  is the handler's `now` argument; a completion handler is modelled as running
  atomically at one instant, so the several `Clock::now()` calls made inside
  one handler body all yield the same value.
* The reactor's completion signal (`std::error_code`) is modelled by `Signal`:
  success, the cancellation code `asio::error::operation_aborted`, or any
  other failure code.
* The application callback (`bool (std::error_code, duration)`) may be a
  stateful function object; it is modelled as a state-transition function
  `CB sigma = sigma -> Signal -> Int -> Bool x sigma` returning the `bool` and
  the updated capture state.
* The underlying `asio::basic_waitable_timer` holds at most one outstanding
  asynchronous wait; `m_timer` is therefore `Option (PendingWait sigma)`,
  recording the armed expiry instant and which completion-handler lambda was
  installed by `async_wait`.  Per the asio documentation, `expires_at`,
  `expires_after` and `cancel` cancel an outstanding wait, whose handler is
  then invoked with `operation_aborted`; the operations below return any such
  displaced wait so that its aborted delivery can be reasoned about.
-/

namespace PeriodicTimer

/-- Completion signal delivered by the reactor to a wait handler:
`success` (timer elapsed normally), `aborted` (asio operation_aborted,
i.e. cancellation), or `failure c` (any other non-success error code). -/
inductive Signal where
  | success : Signal
  | aborted : Signal
  | failure : Nat → Signal
  deriving DecidableEq, Repr

/-- Application callback type: given the function object's captured state, the
error signal and the elapsed duration, return the continuation decision
(`true` = keep going) and the updated captured state. -/
def CB (σ : Type) : Type := σ → Signal → Int → Bool × σ

/-- Which completion-handler lambda is installed on the armed wait.

* `firstDuration dur` — the lambda armed by `start_duration_timer` (either
  overload): `[dur, f, this] (e) { duration_handler_impl(Clock::now(), dur, e, f); }`.
  Its `last_tp` is `Clock::now()` evaluated when the handler runs.
* `durationH lastTp dur` — the lambda armed inside `duration_handler_impl`:
  `[now_time, dur, f, this] (e) { duration_handler_impl(now_time, dur, e, f); }`,
  where `now_time` (= `lastTp`) was the previous completion instant.
* `timepointH lastTp dur` — the lambda armed by `start_timepoint_timer`
  (`timepoint_handler_impl(when - dur, dur, e, f)`) and inside
  `timepoint_handler_impl` (`timepoint_handler_impl(last_tp + dur, dur, e, f)`). -/
inductive HandlerKind where
  | firstDuration : Int → HandlerKind
  | durationH : Int → Int → HandlerKind
  | timepointH : Int → Int → HandlerKind
  deriving DecidableEq, Repr

/-- An outstanding asynchronous wait on the underlying
`asio::basic_waitable_timer`: the absolute expiry instant set by
`expires_at` / `expires_after`, the completion-handler lambda installed by
`async_wait`, and the captured state of the application function object
(moved, never copied, into the lambda). -/
structure PendingWait (σ : Type) where
  expiry : Int
  kind : HandlerKind
  cbState : σ
  deriving DecidableEq, Repr

/-- One invocation of the application callback, as observed by the
application: the error signal passed in, the elapsed duration passed in, and
the boolean the callback returned. -/
structure Invocation where
  err : Signal
  elapsed : Int
  ret : Bool
  deriving DecidableEq, Repr

/-- `duration_handler_impl(last_tp, dur, err, func)` from periodic_timer.hpp,
run at instant `now` (= `Clock::now()` on entry):

```
time_point now_time { Clock::now() };
if (!func(err, now_time - last_tp) || err == asio::error::operation_aborted) {
  return;
}
m_timer.expires_after(dur);
m_timer.async_wait([now_time, dur, f, this](e) { duration_handler_impl(now_time, dur, e, f); });
```

Returns the callback invocation that occurred and the wait the handler
re-armed (`none` when the handler returned without re-arming).
`expires_after dur` arms the expiry at `now + dur`. -/
def duration_handler_impl (cb : CB σ) (lastTp dur : Int) (err : Signal) (now : Int)
    (s : σ) : Invocation × Option (PendingWait σ) :=
  let elapsed := now - lastTp
  let b := (cb s err elapsed).1
  ({ err := err, elapsed := elapsed, ret := b },
   if b = false ∨ err = Signal.aborted then none
   else some { expiry := now + dur, kind := HandlerKind.durationH now dur,
               cbState := (cb s err elapsed).2 })

/-- `timepoint_handler_impl(last_tp, dur, err, func)` from periodic_timer.hpp,
run at instant `now`:

```
if (!func(err, (Clock::now() - last_tp)) || err == asio::error::operation_aborted) {
  return;
}
m_timer.expires_at(last_tp + dur + dur);
m_timer.async_wait([f, last_tp, dur, this](e) { timepoint_handler_impl(last_tp + dur, dur, e, f); });
``` -/
def timepoint_handler_impl (cb : CB σ) (lastTp dur : Int) (err : Signal) (now : Int)
    (s : σ) : Invocation × Option (PendingWait σ) :=
  let elapsed := now - lastTp
  let b := (cb s err elapsed).1
  ({ err := err, elapsed := elapsed, ret := b },
   if b = false ∨ err = Signal.aborted then none
   else some { expiry := lastTp + dur + dur, kind := HandlerKind.timepointH (lastTp + dur) dur,
               cbState := (cb s err elapsed).2 })

/-- Deliver a completion with signal `err` at instant `now` to the armed wait
`pw`: runs the installed completion-handler lambda.  For `firstDuration` the
lambda evaluates `Clock::now()` (= `now`) and passes it as `last_tp`. -/
def fireWait (cb : CB σ) (pw : PendingWait σ) (err : Signal) (now : Int) :
    Invocation × Option (PendingWait σ) :=
  match pw.kind with
  | HandlerKind.firstDuration dur => duration_handler_impl cb now dur err now pw.cbState
  | HandlerKind.durationH lastTp dur => duration_handler_impl cb lastTp dur err now pw.cbState
  | HandlerKind.timepointH lastTp dur => timepoint_handler_impl cb lastTp dur err now pw.cbState

/-- `start_duration_timer(dur, func)` called at instant `now`:
`m_timer.expires_after(dur); m_timer.async_wait(...)`.  `expires_after`
cancels any wait already outstanding (its handler will be invoked with
`operation_aborted`); the first component is that displaced wait.  The second
component is the newly armed wait, expiring at `now + dur`. -/
def start_duration_timer (st : Option (PendingWait σ)) (now dur : Int) (s : σ) :
    Option (PendingWait σ) × PendingWait σ :=
  (st, { expiry := now + dur, kind := HandlerKind.firstDuration dur, cbState := s })

/-- `start_duration_timer(dur, when, func)`:
`m_timer.expires_at(when); m_timer.async_wait(...)` with the same handler
lambda as the one-argument overload. -/
def start_duration_timer_at (st : Option (PendingWait σ)) (dur when : Int) (s : σ) :
    Option (PendingWait σ) × PendingWait σ :=
  (st, { expiry := when, kind := HandlerKind.firstDuration dur, cbState := s })

/-- `start_timepoint_timer(dur, when, func)`:
`m_timer.expires_at(when); m_timer.async_wait([when, dur, f, this](e) {
timepoint_handler_impl((when - dur), dur, e, f); });`. -/
def start_timepoint_timer_at (st : Option (PendingWait σ)) (dur when : Int) (s : σ) :
    Option (PendingWait σ) × PendingWait σ :=
  (st, { expiry := when, kind := HandlerKind.timepointH (when - dur) dur, cbState := s })

/-- `start_timepoint_timer(dur, func)` called at instant `now`: delegates to
`start_timepoint_timer(dur, Clock::now() + dur, func)`. -/
def start_timepoint_timer (st : Option (PendingWait σ)) (now dur : Int) (s : σ) :
    Option (PendingWait σ) × PendingWait σ :=
  start_timepoint_timer_at st dur (now + dur) s

/-- `cancel()`: `m_timer.cancel()`.  The outstanding wait, if any, is
displaced; its handler will be invoked with `operation_aborted`.  Returns the
displaced wait. -/
def cancel (st : Option (PendingWait σ)) : Option (PendingWait σ) := st

/-- Move construction, `periodic_timer(periodic_timer&&) = default`: a
memberwise move of `m_timer`.  Per the asio documentation, move-constructing a
`basic_waitable_timer` transfers the timer implementation — including any
outstanding asynchronous wait — to the new object and leaves the moved-from
object as if freshly constructed; no `cancel()` is performed by the defaulted
constructor.  Result: (wait displaced for aborted delivery — always `none`,
nothing is cancelled; destination timer state; source timer state after). -/
def moveConstruct (src : Option (PendingWait σ)) :
    Option (PendingWait σ) × Option (PendingWait σ) × Option (PendingWait σ) :=
  (none, src, none)

/-- Move assignment, `operator=(periodic_timer&& rhs)`:
`m_timer.cancel(); m_timer = std::move(rhs.m_timer);`.  The explicit
`cancel()` displaces the destination's own outstanding wait (its handler will
run with `operation_aborted`); the timer move-assignment then transfers the
source's implementation, outstanding wait included, to the destination and
leaves the source as if freshly constructed.  Result: (wait displaced by the
`cancel()` call; destination timer state after; source timer state after). -/
def moveAssign (dest src : Option (PendingWait σ)) :
    Option (PendingWait σ) × Option (PendingWait σ) × Option (PendingWait σ) :=
  (dest, src, none)

/-- Trace of callback invocations produced by a sequence of reactor
completion events.  Each event `(t, e)` delivers signal `e` at instant `t` to
the outstanding wait; with no wait outstanding nothing is ever invoked. -/
def runTrace (cb : CB σ) : Option (PendingWait σ) → List (Int × Signal) → List Invocation
  | _, [] => []
  | none, _ :: _ => []
  | some pw, (t, e) :: rest =>
      (fireWait cb pw e t).1 :: runTrace cb (fireWait cb pw e t).2 rest

/-- Timer state reached after a sequence of reactor completion events. -/
def runState (cb : CB σ) : Option (PendingWait σ) → List (Int × Signal) → Option (PendingWait σ)
  | st, [] => st
  | none, _ :: _ => none
  | some pw, (t, e) :: rest => runState cb (fireWait cb pw e t).2 rest

/-- The `last_tp` value against which a handler of kind `k`, running at
instant `now`, measures the elapsed duration it reports. -/
def lastTpOf (k : HandlerKind) (now : Int) : Int :=
  match k with
  | HandlerKind.firstDuration _ => now
  | HandlerKind.durationH lastTp _ => lastTp
  | HandlerKind.timepointH lastTp _ => lastTp

/-- A concrete application callback that always returns `true` (continue). -/
def constTrueCB : CB Unit := fun s _ _ => (true, s)

/-- A concrete application callback that always returns `false` (stop). -/
def constFalseCB : CB Unit := fun s _ _ => (false, s)

-- Helper lemmas ------------------------------------------------------------

theorem fireWait_fst (cb : CB σ) (pw : PendingWait σ) (e : Signal) (t : Int) :
    (fireWait cb pw e t).1 =
      { err := e, elapsed := t - lastTpOf pw.kind t,
        ret := (cb pw.cbState e (t - lastTpOf pw.kind t)).1 } := by
  rcases pw with ⟨x, k, s⟩
  cases k <;> rfl

theorem fireWait_aborted_snd (cb : CB σ) (pw : PendingWait σ) (t : Int) :
    (fireWait cb pw Signal.aborted t).2 = none := by
  rcases pw with ⟨x, k, s⟩
  cases k <;> simp [fireWait, duration_handler_impl, timepoint_handler_impl]

theorem runTrace_none (cb : CB σ) (evs : List (Int × Signal)) :
    runTrace cb none evs = [] := by
  cases evs <;> rfl

-- Claim theorems ------------------------------------------------------------

/-- C1 counterexample: `start_duration_timer(5, f)` called at instant 0 arms
the first wait to expire at instant 5, but when that wait completes — on time,
at instant 5 — the elapsed duration passed to the callback is 0, not
(approximately) the interval 5: the handler lambda passes `Clock::now()`,
evaluated on completion, as `last_tp`. -/
theorem first_duration_elapsed_cex :
    ((start_duration_timer (σ := Unit) none 0 5 ()).2.expiry = 5) ∧
    (fireWait constTrueCB (start_duration_timer none 0 5 ()).2 Signal.success 5).1.elapsed = 0 ∧
    (fireWait constTrueCB (start_duration_timer none 0 5 ()).2 Signal.success 5).1.elapsed ≠ 5 := by
  decide

/-- C1 (amended): after `start_duration_timer(d, func)` at instant `now`, the
first wait is armed to expire at `now + d`; the elapsed duration passed to the
callback on its first invocation is measured from the completion handler's own
entry instant (`Clock::now()` evaluated on completion is passed as `last_tp`)
and is therefore 0 in the model — approximately zero, not the interval. -/
theorem start_duration_arms_first_elapsed_zero (cb : CB σ) (st : Option (PendingWait σ))
    (now dur : Int) (s : σ) (t : Int) (e : Signal) :
    (start_duration_timer st now dur s).2.expiry = now + dur ∧
    (fireWait cb (start_duration_timer st now dur s).2 e t).1.elapsed = 0 := by
  refine ⟨rfl, ?_⟩
  simp [start_duration_timer, fireWait, duration_handler_impl]

/-- C3: in duration-relative mode, a completion handler of kind
`durationH last_tp d` running at instant `t` reports elapsed `t - last_tp`
(where `last_tp` is the previous completion instant captured as `now_time`),
and — when the callback returns true and the signal is not cancellation —
re-arms the wait to expire at `t + d`, capturing `t` as the next cycle's
`last_tp`. -/
theorem duration_policy (cb : CB σ) (x lastTp dur : Int) (s : σ) (t : Int) (e : Signal)
    (hb : (cb s e (t - lastTp)).1 = true) (he : e ≠ Signal.aborted) :
    (fireWait cb ⟨x, HandlerKind.durationH lastTp dur, s⟩ e t).1.elapsed = t - lastTp ∧
    (fireWait cb ⟨x, HandlerKind.durationH lastTp dur, s⟩ e t).2 =
      some ⟨t + dur, HandlerKind.durationH t dur, (cb s e (t - lastTp)).2⟩ := by
  refine ⟨rfl, ?_⟩
  simp [fireWait, duration_handler_impl, hb, he]

/-- C3 witness: the duration-relative policy evaluated at a concrete armed
wait (previous completion at 2, interval 5, completion at 9): elapsed 7 is
reported and the wait re-arms for instant 14. -/
theorem duration_policy_witness :
    ((constTrueCB () Signal.success ((9 : Int) - 2)).1 = true) ∧
    (Signal.success ≠ Signal.aborted) ∧
    (fireWait constTrueCB ⟨0, HandlerKind.durationH 2 5, ()⟩ Signal.success 9).1.elapsed = 9 - 2 ∧
    (fireWait constTrueCB ⟨0, HandlerKind.durationH 2 5, ()⟩ Signal.success 9).2 =
      some ⟨9 + 5, HandlerKind.durationH 9 5, (constTrueCB () Signal.success (9 - 2)).2⟩ :=
  ⟨rfl, by decide,
   (duration_policy constTrueCB 0 2 5 () 9 Signal.success rfl (by decide)).1,
   (duration_policy constTrueCB 0 2 5 () 9 Signal.success rfl (by decide)).2⟩

/-- C4: delivering the cancellation signal (as `cancel()` causes for the
displaced wait) produces exactly one further callback invocation, carrying the
aborted signal; the handler never re-arms — whatever boolean the callback
returns — so no later event produces any further invocation. -/
theorem cancel_single_aborted (cb : CB σ) (pw : PendingWait σ) (t : Int)
    (rest : List (Int × Signal)) :
    runTrace cb (cancel (some pw)) ((t, Signal.aborted) :: rest) =
      [(fireWait cb pw Signal.aborted t).1] ∧
    (fireWait cb pw Signal.aborted t).1.err = Signal.aborted := by
  constructor
  · show (fireWait cb pw Signal.aborted t).1 ::
        runTrace cb (fireWait cb pw Signal.aborted t).2 rest = _
    rw [fireWait_aborted_snd, runTrace_none]
  · rw [fireWait_fst]

/-- C5: once the callback returns false from an invocation, the handler does
not re-arm the timer, and no further invocations occur over any sequence of
later reactor events. -/
theorem stop_on_false (cb : CB σ) (pw : PendingWait σ) (e : Signal) (t : Int)
    (evs : List (Int × Signal))
    (h : (fireWait cb pw e t).1.ret = false) :
    (fireWait cb pw e t).2 = none ∧ runTrace cb (fireWait cb pw e t).2 evs = [] := by
  have h2 : (fireWait cb pw e t).2 = none := by
    rcases pw with ⟨x, k, s⟩
    cases k <;> simp_all [fireWait, duration_handler_impl, timepoint_handler_impl]
  exact ⟨h2, by rw [h2, runTrace_none]⟩

/-- C5 witness: a callback returning false at a concrete invocation (duration
mode, completion at instant 3) leaves the timer unarmed and later events at
instants 4 and 9 produce no invocations. -/
theorem stop_on_false_witness :
    ((fireWait constFalseCB ⟨0, HandlerKind.durationH 0 5, ()⟩ Signal.success 3).1.ret = false) ∧
    ((fireWait constFalseCB ⟨0, HandlerKind.durationH 0 5, ()⟩ Signal.success 3).2 = none ∧
     runTrace constFalseCB
       (fireWait constFalseCB ⟨0, HandlerKind.durationH 0 5, ()⟩ Signal.success 3).2
       [(4, Signal.success), (9, Signal.failure 2)] = []) :=
  ⟨by decide,
   stop_on_false constFalseCB ⟨0, HandlerKind.durationH 0 5, ()⟩ Signal.success 3
     [(4, Signal.success), (9, Signal.failure 2)] (by decide)⟩

/-- C7: a non-success signal other than cancellation is passed unchanged to
the callback together with the elapsed duration, and the handler re-arms
exactly when that callback invocation returns true. -/
theorem failure_passthrough (cb : CB σ) (pw : PendingWait σ) (c : Nat) (t : Int) :
    (fireWait cb pw (Signal.failure c) t).1.err = Signal.failure c ∧
    (fireWait cb pw (Signal.failure c) t).1.elapsed = t - lastTpOf pw.kind t ∧
    (fireWait cb pw (Signal.failure c) t).2.isSome = (fireWait cb pw (Signal.failure c) t).1.ret := by
  refine ⟨by rw [fireWait_fst], by rw [fireWait_fst], ?_⟩
  rcases pw with ⟨x, k, s⟩
  cases k <;>
    simp only [fireWait, duration_handler_impl, timepoint_handler_impl] <;>
    split <;> simp_all

/-- C8: for `start_timepoint_timer(d, when, f)`, the first invocation —
completing at the scheduled first fire instant `when` — reports elapsed
exactly `d`: the installed handler measures from `when - d`, so the instant at
which the start call itself ran never enters the computation. -/
theorem timepoint_first_elapsed (cb : CB σ) (st : Option (PendingWait σ))
    (dur when : Int) (s : σ) (e : Signal) :
    (fireWait cb (start_timepoint_timer_at st dur when s).2 e when).1.elapsed = dur := by
  simp [start_timepoint_timer_at, fireWait, timepoint_handler_impl]

/-- Invariant of the timepoint-relative loop: an armed wait of kind
`timepointH a d` has expiry `a + d`, and after any list of successful,
continuing completions at arbitrary instants the armed expiry has advanced by
exactly one interval per completion, independent of those instants. -/
theorem runState_timepoint_grid (cb : CB σ) (hcb : ∀ s1 e1 el, (cb s1 e1 el).1 = true) :
    ∀ (ts : List Int) (a d : Int) (s : σ),
    (runState cb (some ⟨a + d, HandlerKind.timepointH a d, s⟩)
        (ts.map (fun u => (u, Signal.success)))).map (fun pw => (pw.expiry, pw.kind)) =
      some (a + d + ts.length * d, HandlerKind.timepointH (a + ts.length * d) d) := by
  intro ts
  induction ts with
  | nil => intro a d s; simp [runState]
  | cons t ts ih =>
      intro a d s
      have hstep : (fireWait cb ⟨a + d, HandlerKind.timepointH a d, s⟩ Signal.success t).2 =
          some ⟨a + d + d, HandlerKind.timepointH (a + d) d,
                (cb s Signal.success (t - a)).2⟩ := by
        simp [fireWait, timepoint_handler_impl, hcb]
      rw [List.map_cons]
      show (runState cb (fireWait cb ⟨a + d, HandlerKind.timepointH a d, s⟩ Signal.success t).2
          (ts.map (fun u => (u, Signal.success)))).map (fun pw => (pw.expiry, pw.kind)) = _
      rw [hstep, ih (a + d) d]
      simp only [Option.some.injEq, Prod.mk.injEq, HandlerKind.timepointH.injEq,
        List.length_cons]
      push_cast
      exact ⟨by ring, by ring, trivial⟩

/-- C2: timepoint-relative mode.  First, every continuing completion handler
(callback returns true, signal is not cancellation) with anchor `a`, running
at instant `t`, reports elapsed `t - a`, arms the next wait to expire at
`a + 2d`, and passes `a + d` as the anchor for the next cycle.  Second, for a
timer started by `start_timepoint_timer(d, when, f)`, after any number K of
continuing successful completions at arbitrary instants the armed expiry — the
K-th scheduled fire instant after the first fire at `when` — equals
`when + K * d`, independent of per-cycle processing delay. -/
theorem timepoint_policy (cb : CB σ) (x a d when : Int) (s s0 : σ) (t : Int) (e : Signal)
    (st : Option (PendingWait σ)) (ts : List Int)
    (hcb : ∀ s1 e1 el, (cb s1 e1 el).1 = true) (he : e ≠ Signal.aborted) :
    fireWait cb ⟨x, HandlerKind.timepointH a d, s⟩ e t =
      ({ err := e, elapsed := t - a, ret := true },
       some ⟨a + d + d, HandlerKind.timepointH (a + d) d, (cb s e (t - a)).2⟩) ∧
    (runState cb (some (start_timepoint_timer_at st d when s0).2)
        (ts.map (fun u => (u, Signal.success)))).map (fun pw => (pw.expiry, pw.kind)) =
      some (when + ts.length * d, HandlerKind.timepointH (when - d + ts.length * d) d) := by
  constructor
  · simp [fireWait, timepoint_handler_impl, hcb, he]
  · have h := runState_timepoint_grid cb hcb ts (when - d) d s0
    have h2 : when - d + d = when := by ring
    rw [h2] at h
    exact h

/-- C2 witness: the timepoint-relative policy at concrete inputs — a handler
with anchor 0 and interval 5 completing at instant 12 reports elapsed 12 and
re-arms for instant 10 with anchor 5; and a timer started with interval 5 and
first fire at 100, after three continuing completions at the (late, jittery)
instants 7, 23, 31, is armed for instant 100 + 3 * 5. -/
theorem timepoint_policy_witness :
    (∀ (s1 : Unit) e1 el, (constTrueCB s1 e1 el).1 = true) ∧
    (Signal.success ≠ Signal.aborted) ∧
    fireWait constTrueCB ⟨10, HandlerKind.timepointH 0 5, ()⟩ Signal.success 12 =
      ({ err := Signal.success, elapsed := 12 - 0, ret := true },
       some ⟨0 + 5 + 5, HandlerKind.timepointH (0 + 5) 5,
             (constTrueCB () Signal.success (12 - 0)).2⟩) ∧
    (runState constTrueCB (some (start_timepoint_timer_at none 5 100 ()).2)
        (([7, 23, 31] : List Int).map (fun u => (u, Signal.success)))).map
        (fun pw => (pw.expiry, pw.kind)) =
      some (100 + (([7, 23, 31] : List Int).length : Int) * 5,
            HandlerKind.timepointH (100 - 5 + (([7, 23, 31] : List Int).length : Int) * 5) 5) :=
  ⟨fun s1 e1 el => rfl, by decide,
   (timepoint_policy constTrueCB 10 0 5 100 () () 12 Signal.success none [7, 23, 31]
      (fun s1 e1 el => rfl) (by decide)).1,
   (timepoint_policy constTrueCB 10 0 5 100 () () 12 Signal.success none [7, 23, 31]
      (fun s1 e1 el => rfl) (by decide)).2⟩

/-- C9: calling a start method while a wait is outstanding displaces that wait
(`expires_at` / `expires_after` cancel any pending asynchronous wait, whose
handler then runs once with `operation_aborted`; the aborted signal overrides
any true return, so the previously installed callback sees exactly one
cancellation invocation and is never re-armed), and the timer is armed afresh
with the newly supplied interval, handler kind and callback state. -/
theorem start_while_outstanding (cb : CB σ) (pw : PendingWait σ) (now d when : Int)
    (s : σ) (t : Int) (rest : List (Int × Signal)) :
    start_duration_timer (some pw) now d s =
      (some pw, ⟨now + d, HandlerKind.firstDuration d, s⟩) ∧
    start_timepoint_timer_at (some pw) d when s =
      (some pw, ⟨when, HandlerKind.timepointH (when - d) d, s⟩) ∧
    runTrace cb (some pw) ((t, Signal.aborted) :: rest) =
      [(fireWait cb pw Signal.aborted t).1] ∧
    (fireWait cb pw Signal.aborted t).1.err = Signal.aborted ∧
    (fireWait cb pw Signal.aborted t).2 = none := by
  refine ⟨rfl, rfl, ?_, by rw [fireWait_fst], fireWait_aborted_snd cb pw t⟩
  show (fireWait cb pw Signal.aborted t).1 ::
      runTrace cb (fireWait cb pw Signal.aborted t).2 rest = _
  rw [fireWait_aborted_snd, runTrace_none]

/-- C10: move assignment first cancels the destination's own outstanding wait
(the explicit `m_timer.cancel()` in `operator=`) — that wait's handler runs
with `operation_aborted`, so the destination's installed callback is invoked
with the cancellation signal and never re-arms — and only then does the
destination adopt the source's underlying timer
(`m_timer = std::move(rhs.m_timer)`), leaving the source unscheduled. -/
theorem moveAssign_cancels_dest (cb : CB σ) (pw : PendingWait σ)
    (src : Option (PendingWait σ)) (t : Int) :
    moveAssign (some pw) src = (some pw, src, none) ∧
    (fireWait cb pw Signal.aborted t).1.err = Signal.aborted ∧
    (fireWait cb pw Signal.aborted t).2 = none :=
  ⟨rfl, by rw [fireWait_fst], fireWait_aborted_snd cb pw t⟩

/-- C6 (code-bug evidence): the move constructor is defaulted
(`periodic_timer(periodic_timer&&) = default`), a memberwise move of the asio
timer, so move-constructing from a timer with an outstanding wait cancels
nothing: no wait is displaced for aborted delivery (first component `none` —
the installed callback never sees a cancellation signal) and the destination
comes out armed with the in-flight wait, contradicting the claim and the
class's own doc comment ("all timers are cancelled with appropriate
notification, and start will need to be called"). -/
theorem moveConstruct_no_cancel :
    moveConstruct (some (⟨37, HandlerKind.durationH 30 7, ()⟩ : PendingWait Unit)) =
      (none, some ⟨37, HandlerKind.durationH 30 7, ()⟩, none) := rfl

end PeriodicTimer
